import Mathlib

/-!
Verification of the port-binding discovery engine of `server.py`.

The engine is embedded shallowly: the external commands (`ss`, `lsof`) are
modelled by their raw standard output (`Option String`, `none` when the
command is missing or exits non-zero, which the code catches and treats as
an empty result), and the service-name database (`socket.getservbyport`) by
a function that either returns a name or signals a failure.  All text
processing (`str.split`, `str.strip`, `str.splitlines`, `str.lower` and the
three regular expressions of the source) is embedded over `List Char`,
character for character, restricted to the ASCII behaviour the source
relies on.
-/

namespace Server

/-- Whitespace as Python's `str.split()` / `str.strip()` and the regex
class `\s` treat it (the ASCII whitespace characters). -/
def isPySpace (c : Char) : Bool :=
  c = ' ' || c = '\t' || c = '\n' || c = '\r' || c = '\x0b' || c = '\x0c'

/-- Value of a run of decimal digits, as Python's `int` reads it. -/
def natOfDigits (ds : List Char) : Nat :=
  ds.foldl (fun n c => 10 * n + (c.toNat - '0'.toNat)) 0

/-- Python `s.split(None, maxsplit)` on a character list: leading
whitespace is skipped; once `maxsplit` splits have been made the rest of
the string (from its first non-whitespace character, trailing whitespace
included) is the final field. -/
def pySplitGo : Nat → List Char → List (List Char)
  | 0, cs =>
    match cs.dropWhile isPySpace with
    | [] => []
    | cs2 => [cs2]
  | k + 1, cs =>
    match cs.dropWhile isPySpace with
    | [] => []
    | cs2 => cs2.takeWhile (fun c => !isPySpace c)
        :: pySplitGo k (cs2.dropWhile (fun c => !isPySpace c))

/-- Python `s.split(None, maxsplit)`. -/
def pySplit (maxsplit : Nat) (s : String) : List String :=
  (pySplitGo maxsplit s.data).map List.asString

/-- Python `s.strip()`: drop whitespace from both ends. -/
def pyStrip (s : String) : String :=
  (((s.data.dropWhile isPySpace).reverse.dropWhile isPySpace).reverse).asString

/-- Python `s.splitlines()` on a character list, for the line breaks the
modelled command output can contain (`\n`, `\r`, `\r\n`): every break ends
a line, and a non-empty trailing segment is a line of its own. -/
def pySplitlinesGo : List Char → List Char → List (List Char)
  | acc, [] => if acc.isEmpty then [] else [acc.reverse]
  | acc, '\r' :: '\n' :: cs => acc.reverse :: pySplitlinesGo [] cs
  | acc, '\r' :: cs => acc.reverse :: pySplitlinesGo [] cs
  | acc, '\n' :: cs => acc.reverse :: pySplitlinesGo [] cs
  | acc, c :: cs => pySplitlinesGo (c :: acc) cs

/-- Python `s.splitlines()`. -/
def pySplitlines (s : String) : List String :=
  (pySplitlinesGo [] s.data).map List.asString

/-- Python `s.lower()`, restricted to its ASCII behaviour (`Char.toLower`
maps exactly the letters `A`-`Z` to `a`-`z`). -/
def pyLower (s : String) : String :=
  (s.data.map Char.toLower).asString

/-- Python `x or d` for a string `x`: the empty string is falsy. -/
def pyOrStr (s d : String) : String := if s = "" then d else s

/-- Python `x or d` for an optional-integer `x`: `None` and `0` are falsy. -/
def pyOrOptInt (v : Option Int) (d : Int) : Int :=
  match v with
  | some p => if p = 0 then d else p
  | none => d

/-- Python `x or d` for an optional-string `x` (`None` and `""` falsy). -/
def pyOrOptStr (v : Option String) (d : String) : String :=
  match v with
  | some s => pyOrStr s d
  | none => d

/-- Python `str(x or d)` for an optional integer rendered into an f-string
(`None` and `0` give the fallback text). -/
def pyOrOptIntStr (v : Option Int) (d : String) : String :=
  match v with
  | some p => if p = 0 then d else toString p
  | none => d

/-- Python truthiness of the record's `port` value (`None` and `0` falsy):
the guard `if item and item.get("port")` of `_run_ss`. -/
def pyTruthyOptInt : Option Int → Bool
  | some p => p != 0
  | none => false

/-- Whether `p` is a prefix of `cs` (Python `str.startswith`, and the
literal part of a regex match at a position). -/
def listStartsWith : List Char → List Char → Bool
  | [], _ => true
  | _ :: _, [] => false
  | p :: ps, c :: cs => p == c && listStartsWith ps cs

/-- The service-name database primitive (`socket.getservbyport`): returns
a name or signals a lookup failure (the exception the source catches). -/
abbrev SvcDb := Int → String → Except Unit String

/-- One record of the report: the dictionary
`{proto, port, service, process, pid, state, local_addr}` both adapters
build (`server.py`, docstring of `list_open_ports`).  The spec calls it
PortBinding. -/
structure PortBinding where
  proto : String
  port : Option Int
  service : Option String
  process : Option String
  pid : Option Int
  state : String
  local_addr : Option String
deriving DecidableEq, Repr

/-- `_get_service_name` of `server.py`: wraps the database lookup and
turns any failure into `None`. -/
def _get_service_name (db : SvcDb) (port : Int) (proto : String) : Option String :=
  match db port proto with
  | Except.ok s => some s
  | Except.error _ => none

/-- The regex `re.search(r':(\d+)$', local)` of `_parse_ss_line`, with the
two groups the source uses (`local[: m.start()]` and `int(m.group(1))`):
it matches exactly when the string ends in a colon followed by one or more
digits, the digits being everything after the last colon. -/
def splitAddrPort (lcl : String) : Option (String × Nat) :=
  let ds := lcl.data.reverse.takeWhile Char.isDigit
  match lcl.data.reverse.dropWhile Char.isDigit with
  | ':' :: rest =>
      if ds.isEmpty then none
      else some ((rest.reverse).asString, natOfDigits ds.reverse)
  | _ => none

/-- A match of the regex `users:\(\("([^"]+)"(?:,pid=(\d+))?` at the head
of `cs`: the literal `users:(("`, a non-empty run up to the next quote
(group 1), the closing quote, then optionally `,pid=` and digits
(group 2). -/
def matchUsersAt (cs : List Char) : Option (String × Option Int) :=
  if listStartsWith "users:((\"".data cs then
    let rest := cs.drop 9
    let name := rest.takeWhile (fun c => c != '"')
    match rest.dropWhile (fun c => c != '"') with
    | '"' :: rest2 =>
        if name.isEmpty then none
        else if listStartsWith ",pid=".data rest2 then
          let ds := (rest2.drop 5).takeWhile Char.isDigit
          if ds.isEmpty then some (name.asString, none)
          else some (name.asString, some (Int.ofNat (natOfDigits ds)))
        else some (name.asString, none)
    | _ => none
  else none

/-- `re.search` of the `users:...` pattern: the leftmost position at which
it matches, scanning left to right. -/
def searchUsers (cs : List Char) : Option (String × Option Int) :=
  match cs with
  | [] => none
  | _ :: rest =>
    match matchUsersAt cs with
    | some r => some r
    | none => searchUsers rest

/-- `_parse_ss_line` of `server.py`: split the line into at most 7
whitespace-delimited fields (keeping the process column intact), require
at least 6, and extract protocol, state, local address/port and the
process name/pid. -/
def _parse_ss_line (db : SvcDb) (line : String) : Option PortBinding :=
  let parts := pySplit 6 line
  if parts.length < 6 then none
  else
    let proto := parts.getD 0 ""
    let state := parts.getD 1 ""
    let lcl := parts.getD 4 ""
    let process_blob := parts.getD 6 ""
    let ap := splitAddrPort lcl
    let port : Option Int := ap.map (fun x => Int.ofNat x.2)
    let local_addr : String :=
      match ap with
      | some (a, _) => a
      | none => lcl
    let pm := searchUsers process_blob.data
    some {
      proto := pyLower proto
      port := port
      service :=
        match port with
        | some p => if p != 0 then _get_service_name db p (pyLower proto) else none
        | none => none
      process := pm.map Prod.fst
      pid :=
        match pm with
        | some (_, p) => p
        | none => none
      state := state
      local_addr := some local_addr }

/-- The per-command body of the loop of `_run_ss`: the command's output is
stripped, split into lines, each line stripped and parsed, and a parsed
record is kept only when it is truthy together with its port (`if item and
item.get("port")`).  A missing or failing command (`none`) contributes
nothing (`except ...: continue`). -/
def _run_ss_cmd (db : SvcDb) (o : Option String) : List PortBinding :=
  match o with
  | none => []
  | some out =>
      (pySplitlines (pyStrip out)).filterMap (fun line =>
        match _parse_ss_line db (pyStrip line) with
        | some item => if pyTruthyOptInt item.port then some item else none
        | none => none)

/-- `_run_ss` of `server.py`: run the TCP listing then the UDP listing (in
that order, each only when requested) and append their records. -/
def _run_ss (db : SvcDb) (tcpOut udpOut : Option String) (tcp udp : Bool) :
    List PortBinding :=
  (if tcp then _run_ss_cmd db tcpOut else [])
    ++ (if udp then _run_ss_cmd db udpOut else [])

/-- The ASCII address characters of the lsof regex class
`[\[\]0-9a-fA-F\.:]`. -/
def isAddrChar (c : Char) : Bool :=
  c == '[' || c == ']' || c == '.' || c == ':' || c.isDigit ||
    ('a' ≤ c && c ≤ 'f') || ('A' ≤ c && c ≤ 'F')

/-- Position of the last `':'` in `cs` that is followed by a digit and is
not at index 0 (indices counted from `i`); the greedy class run of the
lsof address regex backtracks to exactly this colon. -/
def lastColonDigitAux : Nat → List Char → Option Nat → Option Nat
  | _, [], best => best
  | i, ':' :: d :: rest, best =>
      if d.isDigit && decide (1 ≤ i) then lastColonDigitAux (i + 1) (d :: rest) (some i)
      else lastColonDigitAux (i + 1) (d :: rest) best
  | i, _ :: rest, best => lastColonDigitAux (i + 1) rest best

/-- A match of `(\*|[\[\]0-9a-fA-F\.:]+):(\d+)` at the head of `cs`,
returning `int(m.group(2))`: either the literal `*` followed by a colon
and digits, or a non-empty greedy run of address characters backtracked to
its last colon that is followed by digits. -/
def matchAddrPortAt (cs : List Char) : Option Nat :=
  match cs with
  | '*' :: ':' :: rest =>
      let ds := rest.takeWhile Char.isDigit
      if ds.isEmpty then none else some (natOfDigits ds)
  | _ =>
      let run := cs.takeWhile isAddrChar
      match lastColonDigitAux 0 run none with
      | some k => some (natOfDigits ((run.drop (k + 1)).takeWhile Char.isDigit))
      | none => none

/-- `re.search(r'\s(\*|[\[\]0-9a-fA-F\.:]+):(\d+)', line)`: leftmost
whitespace character after which the address-port pattern matches. -/
def searchAddrPort (cs : List Char) : Option Nat :=
  match cs with
  | [] => none
  | c :: rest =>
      if isPySpace c then
        match matchAddrPortAt rest with
        | some p => some p
        | none => searchAddrPort rest
      else searchAddrPort rest

/-- `re.search(r'\s(\d+)\s', line)`: leftmost whitespace character
followed by a digit run whose next character is again whitespace. -/
def searchWsNumWs (cs : List Char) : Option Nat :=
  match cs with
  | [] => none
  | c :: rest =>
      let ds := rest.takeWhile Char.isDigit
      if isPySpace c && !ds.isEmpty &&
          (match rest.drop ds.length with
           | d :: _ => isPySpace d
           | [] => false) then
        some (natOfDigits ds)
      else searchWsNumWs rest

/-- `re.match(r'^(\S+)', line)`: the leading non-whitespace token, `None`
on an empty line or one starting with whitespace. -/
def matchCmdName (cs : List Char) : Option String :=
  match cs.takeWhile (fun c => !isPySpace c) with
  | [] => none
  | t => some t.asString

/-- The inner `parse_lsof` of `_run_lsof`: strip and split the output into
lines, skip the header line, and for each line with an address-port match
build a record with the protocol hint, the matched port, the first
free-standing number as pid and the leading token as process name; the
state is synthesized as LISTEN and the local address left empty. -/
def parse_lsof (db : SvcDb) (out : String) (proto_hint : String) : List PortBinding :=
  (pySplitlines (pyStrip out)).filterMap (fun line =>
    if listStartsWith "COMMAND".data line.data then none
    else
      match searchAddrPort line.data with
      | none => none
      | some port =>
          some {
            proto := proto_hint
            port := some (Int.ofNat port)
            service := _get_service_name db (Int.ofNat port) proto_hint
            process := matchCmdName line.data
            pid := (searchWsNumWs line.data).map Int.ofNat
            state := "LISTEN"
            local_addr := none })

/-- `_run_lsof` of `server.py`: parse the TCP listing (when requested and
the command succeeded) then the UDP listing, appending the records; a
missing or failing command contributes nothing. -/
def _run_lsof (db : SvcDb) (tcpOut udpOut : Option String) (tcp udp : Bool) :
    List PortBinding :=
  (if tcp then
    match tcpOut with
    | some out => parse_lsof db out "tcp"
    | none => []
  else [])
    ++ (if udp then
      match udpOut with
      | some out => parse_lsof db out "udp"
      | none => []
    else [])

/-- The deduplication key of `_dedupe`:
`(it.get("proto"), it.get("port"), it.get("pid"), it.get("process"))`. -/
def dedupKey (r : PortBinding) : String × Option Int × Option Int × Option String :=
  (r.proto, r.port, r.pid, r.process)

/-- The loop of `_dedupe`, with the `seen` set made explicit: a record is
kept exactly when its key has not been seen before. -/
def _dedupeAux (seen : List (String × Option Int × Option Int × Option String)) :
    List PortBinding → List PortBinding
  | [] => []
  | it :: rest =>
      if dedupKey it ∈ seen then _dedupeAux seen rest
      else it :: _dedupeAux (dedupKey it :: seen) rest

/-- `_dedupe` of `server.py`. -/
def _dedupe (items : List PortBinding) : List PortBinding :=
  _dedupeAux [] items

/-- The sort key of `list_open_ports`:
`(d.get("proto") or "", d.get("port") or 0)`. -/
def sortKey (r : PortBinding) : String × Int :=
  (pyOrStr r.proto "", pyOrOptInt r.port 0)

/-- The order `list_open_ports` sorts by: ascending lexicographically in
the sort key (protocol as a string, then port as an integer). -/
def keyLe (a b : PortBinding) : Prop :=
  (sortKey a).1 < (sortKey b).1 ∨
    ((sortKey a).1 = (sortKey b).1 ∧ (sortKey a).2 ≤ (sortKey b).2)

instance decKeyLe : DecidableRel keyLe := fun a b =>
  inferInstanceAs (Decidable ((sortKey a).1 < (sortKey b).1 ∨
    ((sortKey a).1 = (sortKey b).1 ∧ (sortKey a).2 ≤ (sortKey b).2)))

instance : IsTotal PortBinding keyLe where
  total a b := by
    rcases lt_trichotomy (sortKey a).1 (sortKey b).1 with h | h | h
    · exact Or.inl (Or.inl h)
    · rcases le_total (sortKey a).2 (sortKey b).2 with h2 | h2
      · exact Or.inl (Or.inr ⟨h, h2⟩)
      · exact Or.inr (Or.inr ⟨h.symm, h2⟩)
    · exact Or.inr (Or.inl h)

instance : IsTrans PortBinding keyLe where
  trans a b c hab hbc := by
    rcases hab with h1 | ⟨e1, p1⟩
    · rcases hbc with h2 | ⟨e2, p2⟩
      · exact Or.inl (lt_trans h1 h2)
      · exact Or.inl (e2 ▸ h1)
    · rcases hbc with h2 | ⟨e2, p2⟩
      · exact Or.inl (e1 ▸ h2)
      · exact Or.inr ⟨e1.trans e2, le_trans p1 p2⟩

/-- `list_open_ports` of `server.py`, as a function of the raw command
outputs: run `ss`, fall back to `lsof` when it produced nothing,
deduplicate, and sort by (protocol, port).  The stable key sort of the
source (`list.sort`) is modelled by a stable insertion sort on the same
key order. -/
def list_open_ports (db : SvcDb) (ssTcp ssUdp lsofTcp lsofUdp : Option String)
    (tcp udp : Bool) : List PortBinding :=
  let data := _run_ss db ssTcp ssUdp tcp udp
  let data := if data.isEmpty then _run_lsof db lsofTcp lsofUdp tcp udp else data
  List.insertionSort keyLe (_dedupe data)

/-- `check_port_service` of `server.py`: rebuild the report with both
protocols requested (the defaults of `list_open_ports`), filter it to the
queried port, and render either the no-listener sentence or one line per
match. -/
def check_port_service (db : SvcDb) (ssTcp ssUdp lsofTcp lsofUdp : Option String)
    (port : Int) : String :=
  let all_ports := list_open_ports db ssTcp ssUdp lsofTcp lsofUdp true true
  let matchList := all_ports.filter (fun p => p.port == some port)
  if matchList.isEmpty then
    "No process is currently listening on port " ++ toString port ++ "."
  else
    String.intercalate "\n" (matchList.map (fun m =>
      "Port " ++ toString port ++ "/" ++ pyOrStr m.proto "?" ++ ": service '" ++
        pyOrOptStr m.service "unknown/custom" ++ "', process '" ++
        pyOrOptStr m.process "unknown" ++ "' (pid " ++
        pyOrOptIntStr m.pid "?" ++ "), state " ++ m.state))


/-- A service database with every lookup failing, for concrete runs. -/
def dbEmpty : SvcDb := fun _ _ => Except.error ()

/-- No ASCII uppercase letter occurs in `s`: the decidable sense in which a
string produced by `pyLower` is lower-case. -/
def noUpper (s : String) : Bool :=
  s.data.all (fun c => !(65 ≤ c.toNat && c.toNat ≤ 90))

theorem toNat_charOfNat (n : Nat) (h : n.isValidChar) : (Char.ofNat n).toNat = n := by
  rw [Char.ofNat, dif_pos h]
  rfl

theorem toLower_not_upper (c : Char) :
    ¬(65 ≤ c.toLower.toNat ∧ c.toLower.toNat ≤ 90) := by
  unfold Char.toLower
  by_cases h : c.toNat ≥ 65 ∧ c.toNat ≤ 90
  · simp only [if_pos h]
    rw [toNat_charOfNat _ (Or.inl (by omega))]
    omega
  · simp only [if_neg h]
    omega

theorem noUpper_pyLower (s : String) : noUpper (pyLower s) = true := by
  unfold noUpper pyLower
  rw [List.asString]
  simp only [List.all_map, List.all_eq_true, Function.comp]
  intro c _
  have h := toLower_not_upper c
  simp only [Bool.not_eq_true', Bool.and_eq_false_iff, decide_eq_false_iff_not]
  omega

theorem mem_run_ss_cmd_truthy {db : SvcDb} {o : Option String} {r : PortBinding}
    (hr : r ∈ _run_ss_cmd db o) : pyTruthyOptInt r.port = true := by
  unfold _run_ss_cmd at hr
  cases o with
  | none => simp at hr
  | some out =>
    simp only [List.mem_filterMap] at hr
    obtain ⟨line, _, hline⟩ := hr
    cases hp : _parse_ss_line db (pyStrip line) with
    | none => rw [hp] at hline; exact absurd hline (by simp)
    | some item =>
      rw [hp] at hline
      by_cases ht : pyTruthyOptInt item.port
      · simp only [if_pos ht, Option.some.injEq] at hline
        rwa [← hline]
      · simp [if_neg ht] at hline

theorem mem_run_ss_port {db : SvcDb} {ssT ssU : Option String} {tcp udp : Bool}
    {r : PortBinding} (hr : r ∈ _run_ss db ssT ssU tcp udp) :
    ∃ p : Int, r.port = some p ∧ p ≠ 0 := by
  unfold _run_ss at hr
  have ht : pyTruthyOptInt r.port = true := by
    rcases List.mem_append.mp hr with h | h <;> (split at h)
    · exact mem_run_ss_cmd_truthy h
    · simp at h
    · exact mem_run_ss_cmd_truthy h
    · simp at h
  cases hport : r.port with
  | none => rw [hport] at ht; simp [pyTruthyOptInt] at ht
  | some p =>
    rw [hport] at ht
    simp only [pyTruthyOptInt, bne_iff_ne, ne_eq] at ht
    exact ⟨p, rfl, ht⟩

theorem mem_parse_lsof {db : SvcDb} {out proto_hint : String} {r : PortBinding}
    (hr : r ∈ parse_lsof db out proto_hint) :
    r.proto = proto_hint ∧ (∃ n : Nat, r.port = some (Int.ofNat n)) ∧ r.state = "LISTEN" := by
  unfold parse_lsof at hr
  simp only [List.mem_filterMap] at hr
  obtain ⟨line, _, hline⟩ := hr
  by_cases hc : listStartsWith "COMMAND".data line.data = true
  · simp [hc] at hline
  · simp only [Bool.not_eq_true] at hc
    rw [hc] at hline
    simp only [Bool.false_eq_true, if_false] at hline
    cases hs : searchAddrPort line.data with
    | none => rw [hs] at hline; exact absurd hline (by simp)
    | some port =>
      rw [hs] at hline
      simp only [Option.some.injEq] at hline
      rw [← hline]
      exact ⟨rfl, ⟨port, rfl⟩, rfl⟩

theorem mem_run_lsof_proto {db : SvcDb} {lsT lsU : Option String} {tcp udp : Bool}
    {r : PortBinding} (hr : r ∈ _run_lsof db lsT lsU tcp udp) :
    (r.proto = "tcp" ∨ r.proto = "udp") ∧ ∃ n : Nat, r.port = some (Int.ofNat n) := by
  unfold _run_lsof at hr
  rcases List.mem_append.mp hr with h | h <;> split at h
  · cases lsT with
    | none => simp at h
    | some o =>
      have := mem_parse_lsof h
      exact ⟨Or.inl this.1, this.2.1⟩
  · simp at h
  · cases lsU with
    | none => simp at h
    | some o =>
      have := mem_parse_lsof h
      exact ⟨Or.inr this.1, this.2.1⟩
  · simp at h

/-- C4: parsing the primary-source raw line
`tcp LISTEN 0 128 0.0.0.0:22 0.0.0.0:* users:(("sshd",pid=450,fd=3))`
yields protocol "tcp", port 22, process "sshd", pid 450, state "LISTEN"
and local address "0.0.0.0", whatever the service database answers. -/
theorem c4_parse_ss_example (db : SvcDb) :
    ∃ r : PortBinding,
      _parse_ss_line db
          "tcp LISTEN 0 128 0.0.0.0:22 0.0.0.0:* users:((\"sshd\",pid=450,fd=3))" = some r ∧
        r.proto = "tcp" ∧ r.port = some 22 ∧ r.process = some "sshd" ∧
        r.pid = some 450 ∧ r.state = "LISTEN" ∧ r.local_addr = some "0.0.0.0" :=
  ⟨_, rfl, rfl, rfl, rfl, rfl, rfl, rfl⟩

/-- C8: the service-name resolver never propagates a lookup failure: an
erroring database lookup yields no name (`none`), and a successful lookup
yields its name — the resolver is a total function either way. -/
theorem c8_resolver_never_fails (db : SvcDb) (port : Int) (proto : String) :
    (∀ e : Unit, db port proto = Except.error e → _get_service_name db port proto = none) ∧
    (∀ s : String, db port proto = Except.ok s → _get_service_name db port proto = some s) := by
  constructor
  · intro e h
    simp [_get_service_name, h]
  · intro s h
    simp [_get_service_name, h]

/-- C9: when no record of the discovery report carries the queried port,
`check_port_service` returns exactly the sentence
"No process is currently listening on port {port}.". -/
theorem c9_no_match_sentence (db : SvcDb) (ssT ssU lsT lsU : Option String) (port : Int)
    (h : (list_open_ports db ssT ssU lsT lsU true true).filter
      (fun p => p.port == some port) = []) :
    check_port_service db ssT ssU lsT lsU port =
      "No process is currently listening on port " ++ toString port ++ "." := by
  unfold check_port_service
  simp [h]

theorem c9_no_match_sentence_witness :
    check_port_service dbEmpty none none none none 8080 =
      "No process is currently listening on port " ++ toString (8080 : Int) ++ "." :=
  c9_no_match_sentence dbEmpty none none none none 8080 (by decide)

/-- C10: in the primary adapter a parsed record whose port is the integer 0
(here from a local field ending in `:0`) is discarded before being
returned — the parse itself yields port 0, no record of `_run_ss` ever has
port 0, and the output for an input consisting of that line alone is
empty, exactly as if the line had no resolvable port. -/
theorem c10_port_zero_dropped (db : SvcDb) (ssT ssU : Option String) (tcp udp : Bool) :
    ((_parse_ss_line db "udp UNCONN 0 0 0.0.0.0:0 0.0.0.0:*").map PortBinding.port
        = some (some 0)) ∧
      (∀ r ∈ _run_ss db ssT ssU tcp udp, r.port ≠ some 0) ∧
      (_run_ss db (some "udp UNCONN 0 0 0.0.0.0:0 0.0.0.0:*") none true true = []) := by
  refine ⟨rfl, ?_, rfl⟩
  intro r hr
  obtain ⟨p, hp, hp0⟩ := mem_run_ss_port hr
  rw [hp]
  intro hcontra
  exact hp0 (by injection hcontra)



theorem _dedupeAux_sublist (l : List PortBinding) :
    ∀ seen, (_dedupeAux seen l).Sublist l := by
  induction l with
  | nil => intro seen; simp [_dedupeAux]
  | cons it rest ih =>
    intro seen
    unfold _dedupeAux
    by_cases h : dedupKey it ∈ seen
    · simp only [if_pos h]
      exact (ih seen).cons it
    · simp only [if_neg h]
      exact (ih _).cons₂ it

theorem mem_dedupe_subset {items : List PortBinding} {r : PortBinding}
    (h : r ∈ _dedupe items) : r ∈ items :=
  (_dedupeAux_sublist items []).subset h

theorem _dedupeAux_countP (k : String × Option Int × Option Int × Option String)
    (l : List PortBinding) :
    ∀ seen, (_dedupeAux seen l).countP (fun r => decide (dedupKey r = k)) =
      if k ∈ seen then 0 else min 1 (l.countP (fun r => decide (dedupKey r = k))) := by
  induction l with
  | nil =>
    intro seen
    simp [_dedupeAux]
  | cons it rest ih =>
    intro seen
    unfold _dedupeAux
    by_cases hseen : dedupKey it ∈ seen
    · simp only [if_pos hseen]
      rw [ih seen, List.countP_cons]
      by_cases hk : k ∈ seen
      · simp [hk]
      · have hne : ¬(dedupKey it = k) := fun he => hk (he ▸ hseen)
        simp [hk, hne]
    · simp only [if_neg hseen]
      rw [List.countP_cons, List.countP_cons, ih (dedupKey it :: seen)]
      by_cases hit : dedupKey it = k
      · subst hit
        simp [List.mem_cons, hseen]
      · have hne : ¬(k = dedupKey it) := fun he => hit he.symm
        by_cases hk : k ∈ seen
        · simp [List.mem_cons, hne, hk, hit]
        · simp [List.mem_cons, hne, hk, hit]

theorem _dedupeAux_find (k : String × Option Int × Option Int × Option String)
    (l : List PortBinding) :
    ∀ seen, k ∉ seen →
      (_dedupeAux seen l).find? (fun r => decide (dedupKey r = k)) =
        l.find? (fun r => decide (dedupKey r = k)) := by
  induction l with
  | nil => intro seen _; rfl
  | cons it rest ih =>
    intro seen hk
    unfold _dedupeAux
    by_cases hseen : dedupKey it ∈ seen
    · simp only [if_pos hseen]
      have hne : ¬(dedupKey it = k) := fun he => hk (he ▸ hseen)
      rw [ih seen hk, List.find?_cons_of_neg _ (by simpa using hne)]
    · simp only [if_neg hseen]
      by_cases hit : dedupKey it = k
      · rw [List.find?_cons_of_pos _ (by simpa using hit),
          List.find?_cons_of_pos _ (by simpa using hit)]
      · rw [List.find?_cons_of_neg _ (by simpa using hit),
          List.find?_cons_of_neg _ (by simpa using hit)]
        exact ih (dedupKey it :: seen) (by
          intro hin
          rcases List.mem_cons.mp hin with he | he
          · exact hit he.symm
          · exact hk he)

/-- C2: deduplication keeps exactly one record per (protocol, port, pid,
process) key: the output is a sublist of the input (so the relative order
of retained records is preserved and nothing new is added); each key
occurring in the input occurs exactly once in the output; and the record
retained for a key is the first input record carrying it, with all its
field values. -/
theorem c2_dedupe_first_occurrence (items : List PortBinding) :
    (_dedupe items).Sublist items ∧
      (∀ k, (_dedupe items).countP (fun r => decide (dedupKey r = k)) =
        min 1 (items.countP (fun r => decide (dedupKey r = k)))) ∧
      (∀ k, (_dedupe items).find? (fun r => decide (dedupKey r = k)) =
        items.find? (fun r => decide (dedupKey r = k))) := by
  refine ⟨_dedupeAux_sublist items [], fun k => ?_, fun k => ?_⟩
  · rw [_dedupe, _dedupeAux_countP k items []]
    simp
  · exact _dedupeAux_find k items [] (by simp)

theorem mem_list_open_ports {db : SvcDb} {ssT ssU lsT lsU : Option String}
    {tcp udp : Bool} {r : PortBinding}
    (hr : r ∈ list_open_ports db ssT ssU lsT lsU tcp udp) :
    r ∈ _run_ss db ssT ssU tcp udp ∨ r ∈ _run_lsof db lsT lsU tcp udp := by
  simp only [list_open_ports] at hr
  rw [List.mem_insertionSort] at hr
  have hr2 := mem_dedupe_subset hr
  by_cases h : (_run_ss db ssT ssU tcp udp).isEmpty
  · rw [if_pos h] at hr2
    exact Or.inr hr2
  · rw [if_neg h] at hr2
    exact Or.inl hr2

/-- C1: the orchestrator queries the primary adapter first; the fallback
adapter's output (deduplicated and sorted) is the report exactly when the
primary adapter's combined result for the requested protocols is empty,
the primary adapter's own output is the report otherwise, and the report
is never a mix: all its records come from the one adapter chosen. -/
theorem c1_primary_then_fallback (db : SvcDb) (ssT ssU lsT lsU : Option String)
    (tcp udp : Bool) :
    (_run_ss db ssT ssU tcp udp = [] →
      list_open_ports db ssT ssU lsT lsU tcp udp =
        List.insertionSort keyLe (_dedupe (_run_lsof db lsT lsU tcp udp))) ∧
      (_run_ss db ssT ssU tcp udp ≠ [] →
        list_open_ports db ssT ssU lsT lsU tcp udp =
          List.insertionSort keyLe (_dedupe (_run_ss db ssT ssU tcp udp))) ∧
      ((∀ r ∈ list_open_ports db ssT ssU lsT lsU tcp udp, r ∈ _run_ss db ssT ssU tcp udp) ∨
        (∀ r ∈ list_open_ports db ssT ssU lsT lsU tcp udp, r ∈ _run_lsof db lsT lsU tcp udp)) := by
  have e1 : _run_ss db ssT ssU tcp udp = [] →
      list_open_ports db ssT ssU lsT lsU tcp udp =
        List.insertionSort keyLe (_dedupe (_run_lsof db lsT lsU tcp udp)) := by
    intro h
    simp only [list_open_ports]
    rw [h]
    rfl
  have e2 : _run_ss db ssT ssU tcp udp ≠ [] →
      list_open_ports db ssT ssU lsT lsU tcp udp =
        List.insertionSort keyLe (_dedupe (_run_ss db ssT ssU tcp udp)) := by
    intro h
    simp only [list_open_ports]
    rw [if_neg (fun hc => h (List.isEmpty_iff.mp hc))]
  refine ⟨e1, e2, ?_⟩
  by_cases h : _run_ss db ssT ssU tcp udp = []
  · right
    intro r hr
    rw [e1 h, List.mem_insertionSort] at hr
    exact mem_dedupe_subset hr
  · left
    intro r hr
    rw [e2 h, List.mem_insertionSort] at hr
    exact mem_dedupe_subset hr

/-- C3: the final report is sorted ascending by the pair (protocol as a
string, port as an integer), a missing protocol comparing as the empty
string and a missing port as 0: every adjacent pair of records is related
by that lexicographic order. -/
theorem c3_report_sorted (db : SvcDb) (ssT ssU lsT lsU : Option String) (tcp udp : Bool) :
    (list_open_ports db ssT ssU lsT lsU tcp udp).Chain' keyLe := by
  simp only [list_open_ports]
  exact (List.sorted_insertionSort keyLe _).chain'

/-- C5: no record of the final report has a missing port, whatever the
adapters' raw outputs were. -/
theorem c5_no_missing_port (db : SvcDb) (ssT ssU lsT lsU : Option String) (tcp udp : Bool) :
    ∀ r ∈ list_open_ports db ssT ssU lsT lsU tcp udp, r.port ≠ none := by
  intro r hr
  rcases mem_list_open_ports hr with h | h
  · obtain ⟨p, hp, _⟩ := mem_run_ss_port h
    rw [hp]
    simp
  · obtain ⟨_, n, hn⟩ := mem_run_lsof_proto h
    rw [hn]
    simp

theorem c5_no_missing_port_witness :
    ({ proto := "tcp", port := some 22, service := none, process := some "sshd",
       pid := some 450, state := "LISTEN", local_addr := some "0.0.0.0"} : PortBinding).port
      ≠ none :=
  c5_no_missing_port dbEmpty
    (some "tcp LISTEN 0 128 0.0.0.0:22 0.0.0.0:* users:((\"sshd\",pid=450,fd=3))")
    none none none true true _ (by decide)



theorem mem_run_ss_cmd_parse {db : SvcDb} {o : Option String} {r : PortBinding}
    (hr : r ∈ _run_ss_cmd db o) : ∃ l : String, _parse_ss_line db l = some r := by
  unfold _run_ss_cmd at hr
  cases o with
  | none => simp at hr
  | some out =>
    simp only [List.mem_filterMap] at hr
    obtain ⟨line, _, hline⟩ := hr
    cases hp : _parse_ss_line db (pyStrip line) with
    | none => rw [hp] at hline; exact absurd hline (by simp)
    | some item =>
      rw [hp] at hline
      by_cases ht : pyTruthyOptInt item.port
      · simp only [if_pos ht, Option.some.injEq] at hline
        exact ⟨pyStrip line, by rw [hp, hline]⟩
      · simp [if_neg ht] at hline

theorem parse_ss_proto {db : SvcDb} {l : String} {item : PortBinding}
    (h : _parse_ss_line db l = some item) : ∃ s : String, item.proto = pyLower s := by
  unfold _parse_ss_line at h
  by_cases hlen : (pySplit 6 l).length < 6
  · simp [hlen] at h
  · simp only [if_neg hlen, Option.some.injEq] at h
    exact ⟨(pySplit 6 l).getD 0 "", by rw [← h]⟩

theorem mem_run_ss_noUpper {db : SvcDb} {ssT ssU : Option String} {tcp udp : Bool}
    {r : PortBinding} (hr : r ∈ _run_ss db ssT ssU tcp udp) : noUpper r.proto = true := by
  have hparse : ∃ l, _parse_ss_line db l = some r := by
    unfold _run_ss at hr
    rcases List.mem_append.mp hr with h | h <;> split at h
    · exact mem_run_ss_cmd_parse h
    · simp at h
    · exact mem_run_ss_cmd_parse h
    · simp at h
  obtain ⟨l, hl⟩ := hparse
  obtain ⟨t, ht⟩ := parse_ss_proto hl
  rw [ht]
  exact noUpper_pyLower t

/-- C7 counterexample: a primary-source line whose first column is `RAW`
produces a record — and a final report — whose protocol is "raw":
lower-case, but not one of the two recognized values. -/
theorem c7_protocol_counterexample :
    (list_open_ports dbEmpty (some "RAW X 0 128 0.0.0.0:22 peer") none none none
        true true).map PortBinding.proto = ["raw"] ∧
      ¬("raw" = "tcp" ∨ "raw" = "udp") :=
  ⟨rfl, by decide⟩

/-- C7 (amended): the protocol field is always lower-case (it never
contains an ASCII uppercase letter): the fallback adapter emits exactly
"tcp" or "udp", while the primary adapter emits the lower-cased first
column of its line, which need not be one of the two recognized values. -/
theorem c7_protocol_lowercase (db : SvcDb) (ssT ssU lsT lsU : Option String)
    (tcp udp : Bool) :
    (∀ r ∈ _run_ss db ssT ssU tcp udp, noUpper r.proto = true) ∧
      (∀ r ∈ _run_lsof db lsT lsU tcp udp, r.proto = "tcp" ∨ r.proto = "udp") ∧
      (∀ r ∈ list_open_ports db ssT ssU lsT lsU tcp udp, noUpper r.proto = true) := by
  refine ⟨fun r hr => mem_run_ss_noUpper hr, fun r hr => (mem_run_lsof_proto hr).1, ?_⟩
  intro r hr
  rcases mem_list_open_ports hr with h | h
  · exact mem_run_ss_noUpper h
  · rcases (mem_run_lsof_proto h).1 with hp | hp <;> rw [hp] <;> decide

/-- C6 counterexample: a port far outside 0-65535 is not rejected:
`check_port_service` returns the normal no-listener report string for it
instead of signaling an error. -/
theorem c6_out_of_range_counterexample :
    check_port_service dbEmpty none none none none 70000 =
      "No process is currently listening on port 70000." := rfl

/-- C6 (amended): `check_port_service` performs no range validation: a
port outside 0-65535 flows through the normal path, and when no record of
the report carries it the ordinary no-listener sentence is returned — a
normal report string, never a rejected-input error. -/
theorem c6_out_of_range_not_rejected (db : SvcDb) (ssT ssU lsT lsU : Option String)
    (port : Int) (_hout : port < 0 ∨ 65535 < port)
    (h : (list_open_ports db ssT ssU lsT lsU true true).filter
      (fun p => p.port == some port) = []) :
    check_port_service db ssT ssU lsT lsU port =
      "No process is currently listening on port " ++ toString port ++ "." := by
  unfold check_port_service
  simp [h]

theorem c6_out_of_range_not_rejected_witness :
    check_port_service dbEmpty none none none none (-7) =
      "No process is currently listening on port " ++ toString (-7 : Int) ++ "." :=
  c6_out_of_range_not_rejected dbEmpty none none none none (-7) (Or.inl (by decide))
    (by decide)


end Server
